import Mathlib

/-!
Formal model of the segment writer and the worst-case output size bound of a
JPEG/JFIF encoder. The definitions are shallow embeddings of `src/writer.rs`
and `src/maxsize.rs`; collaborator types that live outside those two files
(markers, sampling factors, Huffman and quantization tables) are modelled from
the specification. Each emitter of the writer appends a fixed byte sequence to
the sink and carries no other state, so an emitter is modelled as the list of
bytes it writes; the assertion on a bad destination slot is modelled by an
`Option` result that is `none`, with no bytes produced.
-/

/-- Big-endian byte pair emitted by `write_u16` in `writer.rs`
(`value.to_be_bytes()`); the Rust value has type `u16`, so it is reduced
modulo 2^16. -/
def u16be (v : Nat) : List Nat := [v % 65536 / 256, v % 256]

/-- Modelled from the spec: `Marker` (file `marker.rs`, not among the sources)
is a closed set of one-byte JPEG marker codes, each convertible to its
canonical byte value (APP0 = 0xE0, DQT = 0xDB, DHT = 0xC4, and so on),
always preceded by the fixed byte 0xFF when emitted. -/
inductive Marker where
  | SOI
  | EOI
  | SOF
  | SOS
  | DQT
  | DHT
  | COM
  | APP (n : Nat)

/-- Modelled from the spec: the canonical byte value of each marker
(the `Into<u8>` conversion of `marker.rs`). -/
def Marker.code : Marker → Nat
  | .SOI => 0xD8
  | .EOI => 0xD9
  | .SOF => 0xC0
  | .SOS => 0xDA
  | .DQT => 0xDB
  | .DHT => 0xC4
  | .COM => 0xFE
  | .APP n => 0xE0 + n % 16

/-- Pixel density of an image, from `writer.rs`; the `x` and `y` components
are `u16` values. -/
inductive Density where
  | None
  | Inch (x y : Nat)
  | Centimeter (x y : Nat)

/-- Zig-zag sequence of quantized DCT coefficients, the static table `ZIGZAG`
of `writer.rs`. -/
def ZIGZAG : List Nat := [
  0, 1, 8, 16, 9, 2, 3, 10,
  17, 24, 32, 25, 18, 11, 4, 5,
  12, 19, 26, 33, 40, 48, 41, 34,
  27, 20, 13, 6, 7, 14, 21, 28,
  35, 42, 49, 56, 57, 50, 43, 36,
  29, 22, 15, 23, 30, 37, 44, 51,
  58, 59, 52, 45, 38, 31, 39, 46,
  53, 60, 61, 54, 47, 55, 62, 63]

/-- Modelled from the spec: the coding class of a Huffman table, exactly two
values (DC and AC) convertible to a 1-bit field (`huffman.rs` is not among
the sources); `writer.rs` uses it as `class as u8`. -/
inductive CodingClass where
  | DC
  | AC

/-- Numeric value of a coding class, the `class as u8` cast of `writer.rs`. -/
def CodingClass.toNat : CodingClass → Nat
  | .DC => 0
  | .AC => 1

/-- Modelled from the spec: a Huffman table (`huffman.rs` is not among the
sources) exposes the 16 per-length counts (`table.length()`) and the ordered
value sequence (`table.values()`), both sequences of bytes. The invariant
that the counts sum to the number of values is not validated by the writer
and is carried as a hypothesis where needed. -/
structure HuffmanTable where
  length : List Nat
  values : List Nat

/-- Modelled from the spec: a quantization table (`quantization.rs` is not
among the sources) exposes coefficient lookup by natural (row-major) index
0..63; it is represented by its lookup function. -/
def QuantizationTable := Nat → Nat

/-- Coefficient lookup, `table.get(index)` in `writer.rs`. -/
def QuantizationTable.get (t : QuantizationTable) (index : Nat) : Nat := t index

/-- `JfifWriter::write_marker` of `writer.rs`: the two bytes `0xFF, code`. -/
def write_marker (marker : Marker) : List Nat := [0xFF, marker.code]

/-- `JfifWriter::write_segment` of `writer.rs`: the marker, a big-endian
16-bit length field `data.len() as u16 + 2` (the `usize` to `u16` cast wraps
modulo 2^16), then the data verbatim. -/
def write_segment (marker : Marker) (data : List Nat) : List Nat :=
  write_marker marker ++ u16be (data.length + 2) ++ data

/-- `JfifWriter::write_header` of `writer.rs`: the APP0 marker, length 16,
the literal `JFIF\0`, version bytes 0x01 0x02, the unit byte with the two
16-bit density components (both 1 when the density is `None`), and two zero
bytes for the absent thumbnail. -/
def write_header (density : Density) : List Nat :=
  write_marker (.APP 0) ++ u16be 16 ++
    [0x4A, 0x46, 0x49, 0x46, 0x00] ++ [0x01, 0x02] ++
    (match density with
      | .None => [0x00] ++ u16be 1 ++ u16be 1
      | .Inch x y => [0x01] ++ u16be x ++ u16be y
      | .Centimeter x y => [0x02] ++ u16be x ++ u16be y) ++
    [0x00, 0x00]

/-- `JfifWriter::write_huffman_segment` of `writer.rs`: asserts
`destination < 4` (modelled as `none`, nothing written), then emits the DHT
marker, the length `2 + 1 + 16 + values.len() as u16`, the byte
`(class << 4) | destination`, the 16 count bytes, then the values. -/
def write_huffman_segment (cls : CodingClass) (destination : Nat)
    (table : HuffmanTable) : Option (List Nat) :=
  if destination < 4 then
    some (write_marker .DHT ++ u16be (2 + 1 + 16 + table.values.length) ++
      [(cls.toNat <<< 4) ||| destination] ++ table.length ++ table.values)
  else
    none

/-- `JfifWriter::write_quantization_segment` of `writer.rs`: asserts
`destination < 4` (modelled as `none`, nothing written), then emits the DQT
marker, the length `2 + 1 + 64`, the destination byte, then for each `v` in
`ZIGZAG` the coefficient `table.get(v)`. -/
def write_quantization_segment (destination : Nat)
    (table : QuantizationTable) : Option (List Nat) :=
  if destination < 4 then
    some (write_marker .DQT ++ u16be (2 + 1 + 64) ++ [destination] ++
      ZIGZAG.map (fun v => table.get v))
  else
    none

/-- Modelled from the spec: `SamplingFactor` (not among the sources) is a
closed set of chroma-subsampling schemes: 4:4:4, 4:2:2, 4:2:0, 4:1:1 and a
grayscale/no-chroma variant. -/
inductive SamplingFactor where
  | R_4_4_4
  | R_4_2_2
  | R_4_2_0
  | R_4_1_1
  | Gray

/-- Modelled from the spec: `SamplingFactor::mcu_size`, the MCU pixel
footprint of each variant. The spec gives 4:4:4 → 8×8, 4:2:0 → 16×16 and
grayscale → 8×8 directly; 4:2:2 → 16×8 and 4:1:1 → 32×8 are pinned down by
the reference output sizes listed in the spec and in the tests of
`maxsize.rs`. -/
def SamplingFactor.mcu_size : SamplingFactor → Nat × Nat
  | .R_4_4_4 => (8, 8)
  | .R_4_2_2 => (16, 8)
  | .R_4_2_0 => (16, 16)
  | .R_4_1_1 => (32, 8)
  | .Gray => (8, 8)

/-- Rust `u64::next_multiple_of`: the smallest multiple of `m` that is at
least `n`, for `m > 0` (every MCU dimension is positive). -/
def nextMultipleOf (n m : Nat) : Nat := (n + m - 1) / m * m

/-- The chroma term `4 * 64 / (mcu_width as u64 * mcu_height as u64)`
computed inside `max_output_size` in `maxsize.rs`. -/
def chroma_term (sampling_factor : SamplingFactor) : Nat :=
  4 * 64 / (sampling_factor.mcu_size.1 * sampling_factor.mcu_size.2)

/-- `max_output_size` of `maxsize.rs`: pad each dimension up to a whole
number of MCUs, then `padded_w * padded_h * (2 + chroma) + 2048`. The Rust
arithmetic is in `u64` and cannot overflow for `u16` dimensions, so plain
natural numbers model it exactly. -/
def max_output_size (width height : Nat)
    (sampling_factor : SamplingFactor) : Nat :=
  nextMultipleOf width sampling_factor.mcu_size.1 *
    nextMultipleOf height sampling_factor.mcu_size.2 *
    (2 + chroma_term sampling_factor) + 2048

/-- Inverse of the `ZIGZAG` permutation: `UNZIG` maps a natural (row-major)
index to the scan position holding it, so `ZIGZAG[UNZIG[i]] = i` for every
`i < 64` (proved below by evaluation). -/
def UNZIG : List Nat := [
  0, 1, 5, 6, 14, 15, 27, 28,
  2, 4, 7, 13, 16, 26, 29, 42,
  3, 8, 12, 17, 25, 30, 41, 43,
  9, 11, 18, 24, 31, 40, 44, 53,
  10, 19, 23, 32, 39, 45, 52, 54,
  20, 22, 33, 38, 46, 51, 55, 60,
  21, 34, 37, 47, 50, 56, 59, 61,
  35, 36, 48, 49, 57, 58, 62, 63]

lemma ZIGZAG_length : ZIGZAG.length = 64 := by decide

lemma unzig_lt : ∀ i : Nat, i < 64 → UNZIG.getD i 0 < 64 := by decide

lemma zigzag_unzig : ∀ i : Nat, i < 64 → ZIGZAG.getD (UNZIG.getD i 0) 0 = i := by decide

lemma getD_map_of_lt (f : Nat → Nat) :
    ∀ (l : List Nat) (p : Nat), p < l.length → (l.map f).getD p 0 = f (l.getD p 0)
  | _ :: _, 0, _ => rfl
  | _ :: l, p + 1, h => getD_map_of_lt f l p (by simpa using h)

lemma nextMultipleOf_mono (m : Nat) {a b : Nat} (h : a ≤ b) :
    nextMultipleOf a m ≤ nextMultipleOf b m :=
  Nat.mul_le_mul_right _ (Nat.div_le_div_right (by omega))

lemma sum_le_of_lt_256 : ∀ l : List Nat, (∀ c ∈ l, c < 256) → l.sum ≤ l.length * 255
  | [], _ => by simp
  | a :: l, h => by
    have ha : a < 256 := h a (List.mem_cons_self a l)
    have hl : l.sum ≤ l.length * 255 :=
      sum_le_of_lt_256 l (fun c hc => h c (List.mem_cons_of_mem a hc))
    simp only [List.sum_cons, List.length_cons]
    omega

/-- Claim C2: `max_output_size` returns exactly the reference values
25769805824, 17179871232 and 12884903936 at the 65535×65535 boundary for
4:4:4, 4:2:2 and 4:2:0, and 2432, 2816 and 5120 at the interior points
(1,1,4:4:4), (8,16,4:2:0) and (16,32,4:1:1). -/
theorem max_output_size_reference_values :
    max_output_size 65535 65535 SamplingFactor.R_4_4_4 = 25769805824 ∧
    max_output_size 65535 65535 SamplingFactor.R_4_2_2 = 17179871232 ∧
    max_output_size 65535 65535 SamplingFactor.R_4_2_0 = 12884903936 ∧
    max_output_size 1 1 SamplingFactor.R_4_4_4 = 2432 ∧
    max_output_size 8 16 SamplingFactor.R_4_2_0 = 2816 ∧
    max_output_size 16 32 SamplingFactor.R_4_1_1 = 5120 := by decide

/-- Claim C3: `max_output_size` is monotonically non-decreasing in the width
and in the height separately, the other dimension and the sampling factor
held fixed. -/
theorem max_output_size_mono :
    (∀ (f : SamplingFactor) (h w1 w2 : Nat), w1 ≤ w2 →
      max_output_size w1 h f ≤ max_output_size w2 h f) ∧
    (∀ (f : SamplingFactor) (w h1 h2 : Nat), h1 ≤ h2 →
      max_output_size w h1 f ≤ max_output_size w h2 f) := by
  constructor
  · intro f h w1 w2 hw
    exact Nat.add_le_add_right
      (Nat.mul_le_mul (Nat.mul_le_mul (nextMultipleOf_mono _ hw) le_rfl) le_rfl) 2048
  · intro f w h1 h2 hh
    exact Nat.add_le_add_right
      (Nat.mul_le_mul (Nat.mul_le_mul le_rfl (nextMultipleOf_mono _ hh)) le_rfl) 2048

theorem max_output_size_mono_witness :
    max_output_size 3 5 SamplingFactor.R_4_2_0 ≤
      max_output_size 7 5 SamplingFactor.R_4_2_0 ∧
    max_output_size 5 3 SamplingFactor.R_4_1_1 ≤
      max_output_size 5 9 SamplingFactor.R_4_1_1 :=
  ⟨max_output_size_mono.1 SamplingFactor.R_4_2_0 5 3 7 (by decide),
   max_output_size_mono.2 SamplingFactor.R_4_1_1 5 3 9 (by decide)⟩

/-- Claim C4: for every sampling factor `max_output_size 0 0 f = 2048`; the
function is a total function of its arguments (it is a Lean `def` with no
`Option`), and a zero width or a zero height yields exactly the fixed 2048
header overhead. -/
theorem max_output_size_zero :
    (∀ f : SamplingFactor, max_output_size 0 0 f = 2048) ∧
    (∀ (f : SamplingFactor) (w h : Nat), w = 0 ∨ h = 0 →
      max_output_size w h f = 2048) := by
  constructor
  · intro f
    cases f <;> rfl
  · intro f w h hwh
    rcases hwh with rfl | rfl <;> cases f <;>
      simp [max_output_size, nextMultipleOf, chroma_term, SamplingFactor.mcu_size]

theorem max_output_size_zero_witness :
    max_output_size 5 0 SamplingFactor.R_4_2_2 = 2048 :=
  max_output_size_zero.2 SamplingFactor.R_4_2_2 5 0 (Or.inr rfl)

/-- Claim C5, refuted on the code: with the 8×8 grayscale MCU footprint the
spec gives, the chroma term `4 * 64 / (8 * 8)` inside `max_output_size`
evaluates to 4, not 0, so the grayscale bound is
`padded_w * padded_h * 6 + 2048` and not `padded_w * padded_h * 2 + 2048`
(at 8×8 the code yields 2432, the claimed chroma-free bound would be 2176). -/
theorem gray_chroma_term_is_four :
    SamplingFactor.Gray.mcu_size = (8, 8) ∧
    chroma_term SamplingFactor.Gray = 4 ∧
    max_output_size 8 8 SamplingFactor.Gray = 2432 ∧
    max_output_size 8 8 SamplingFactor.Gray ≠ 8 * 8 * 2 + 2048 := by decide

/-- Claim C1: for every quantization table and destination below 4, the DQT
segment is the marker 0xFF 0xDB, the big-endian length 67 (independent of
the table), the destination byte with a zero high (precision) nibble, then
64 coefficient bytes where scan position `p` holds the table value at
natural index `ZIGZAG[p]`; applying the inverse zig-zag permutation to the
emitted coefficient bytes reconstructs the natural-order table. -/
theorem write_quantization_segment_spec (t : QuantizationTable) (dest : Nat)
    (hdest : dest < 4) :
    write_quantization_segment dest t =
      some ([0xFF, 0xDB, 0x00, 67, dest] ++ ZIGZAG.map (fun v => t.get v)) ∧
    dest >>> 4 = 0 ∧
    (ZIGZAG.map (fun v => t.get v)).length = 64 ∧
    (∀ p : Nat, p < 64 →
      (ZIGZAG.map (fun v => t.get v)).getD p 0 = t.get (ZIGZAG.getD p 0)) ∧
    (∀ i : Nat, i < 64 →
      (ZIGZAG.map (fun v => t.get v)).getD (UNZIG.getD i 0) 0 = t.get i) := by
  refine ⟨?_, ?_, ?_, ?_, ?_⟩
  · simp [write_quantization_segment, hdest, write_marker, Marker.code, u16be]
  · interval_cases dest <;> decide
  · simp [ZIGZAG_length]
  · intro p hp
    exact getD_map_of_lt _ ZIGZAG p (by rw [ZIGZAG_length]; exact hp)
  · intro i hi
    rw [getD_map_of_lt _ ZIGZAG _ (by rw [ZIGZAG_length]; exact unzig_lt i hi),
      zigzag_unzig i hi]

theorem write_quantization_segment_spec_witness :
    write_quantization_segment 0 (fun i => i) =
      some ([0xFF, 0xDB, 0x00, 67, 0] ++
        ZIGZAG.map (fun v => QuantizationTable.get (fun i => i) v)) :=
  (write_quantization_segment_spec (fun i => i) 0 (by decide)).1

/-- Claim C6: for every Huffman table honouring its data-model invariant
(16 per-length counts, each a byte, summing to the number of values), every
coding class and every destination below 4, the DHT segment is the marker
0xFF 0xC4, a big-endian length field equal to 19 plus the number of values,
the byte `(class << 4) | destination` (which decodes back via
`(byte >> 4, byte & 0xF)`), the 16 count bytes, then the values verbatim in
stored order. -/
theorem write_huffman_segment_spec (cls : CodingClass) (dest : Nat)
    (table : HuffmanTable) (hdest : dest < 4)
    (hlen : table.length.length = 16)
    (hcounts : ∀ c ∈ table.length, c < 256)
    (hsum : table.length.sum = table.values.length) :
    write_huffman_segment cls dest table =
      some ([0xFF, 0xC4] ++
        [(19 + table.values.length) / 256, (19 + table.values.length) % 256] ++
        [(cls.toNat <<< 4) ||| dest] ++ table.length ++ table.values) ∧
    ((cls.toNat <<< 4) ||| dest) >>> 4 = cls.toNat ∧
    ((cls.toNat <<< 4) ||| dest) &&& 0xF = dest := by
  have hv : table.values.length ≤ 4080 := by
    have hs := sum_le_of_lt_256 table.length hcounts
    rw [hsum, hlen] at hs
    omega
  have h19 : (19 + table.values.length) % 65536 = 19 + table.values.length := by
    omega
  refine ⟨?_, ?_, ?_⟩
  · simp [write_huffman_segment, hdest, write_marker, Marker.code, u16be, h19]
  · cases cls <;> (interval_cases dest <;> decide)
  · cases cls <;> (interval_cases dest <;> decide)

theorem write_huffman_segment_spec_witness :
    write_huffman_segment CodingClass.DC 1
      ⟨[1, 0, 0, 0, 0, 0, 0, 0, 0, 0, 0, 0, 0, 0, 0, 0], [0x42]⟩ =
      some ([0xFF, 0xC4] ++ [(19 + 1) / 256, (19 + 1) % 256] ++
        [(CodingClass.DC.toNat <<< 4) ||| 1] ++
        [1, 0, 0, 0, 0, 0, 0, 0, 0, 0, 0, 0, 0, 0, 0, 0] ++ [0x42]) :=
  (write_huffman_segment_spec CodingClass.DC 1
    ⟨[1, 0, 0, 0, 0, 0, 0, 0, 0, 0, 0, 0, 0, 0, 0, 0], [0x42]⟩
    (by decide) (by decide) (by decide) (by decide)).1

/-- Claim C7: for every destination at least 4, both table-segment emitters
fault on the assertion; in this model the result is `none` with no byte
list produced, matching the reference where the assertion precedes every
write, so nothing reaches the sink. -/
theorem bad_destination_writes_nothing (dest : Nat) (hdest : 4 ≤ dest) :
    (∀ (cls : CodingClass) (table : HuffmanTable),
      write_huffman_segment cls dest table = none) ∧
    (∀ table : QuantizationTable,
      write_quantization_segment dest table = none) := by
  constructor
  · intro cls table
    simp [write_huffman_segment, Nat.not_lt.mpr hdest]
  · intro table
    simp [write_quantization_segment, Nat.not_lt.mpr hdest]

theorem bad_destination_writes_nothing_witness :
    write_huffman_segment CodingClass.AC 4 ⟨[], []⟩ = none ∧
    write_quantization_segment 4 (fun _ => 0) = none :=
  ⟨(bad_destination_writes_nothing 4 (by decide)).1 CodingClass.AC ⟨[], []⟩,
   (bad_destination_writes_nothing 4 (by decide)).2 (fun _ => 0)⟩

/-- Claim C8: for every density value, the APP0 header is the marker
0xFF 0xE0, big-endian length 16, the literal `JFIF\0`, version 0x01 0x02,
the unit byte (0 none, 1 inch, 2 centimeter) followed by the two big-endian
16-bit density components (both 1 for the none variant), then two zero
bytes — 18 bytes in total, with every variant handled. -/
theorem write_header_spec :
    write_header Density.None =
      [0xFF, 0xE0, 0x00, 16, 0x4A, 0x46, 0x49, 0x46, 0x00, 0x01, 0x02,
        0x00, 0x00, 0x01, 0x00, 0x01, 0x00, 0x00] ∧
    (∀ x y : Nat, x < 65536 → y < 65536 →
      write_header (Density.Inch x y) =
        [0xFF, 0xE0, 0x00, 16, 0x4A, 0x46, 0x49, 0x46, 0x00, 0x01, 0x02,
          0x01] ++ [x / 256, x % 256] ++ [y / 256, y % 256] ++ [0x00, 0x00]) ∧
    (∀ x y : Nat, x < 65536 → y < 65536 →
      write_header (Density.Centimeter x y) =
        [0xFF, 0xE0, 0x00, 16, 0x4A, 0x46, 0x49, 0x46, 0x00, 0x01, 0x02,
          0x02] ++ [x / 256, x % 256] ++ [y / 256, y % 256] ++ [0x00, 0x00]) ∧
    (∀ d : Density, (write_header d).length = 18) := by
  refine ⟨by decide, ?_, ?_, ?_⟩
  · intro x y hx hy
    simp [write_header, write_marker, Marker.code, u16be,
      Nat.mod_eq_of_lt hx, Nat.mod_eq_of_lt hy]
  · intro x y hx hy
    simp [write_header, write_marker, Marker.code, u16be,
      Nat.mod_eq_of_lt hx, Nat.mod_eq_of_lt hy]
  · intro d
    cases d <;> rfl

theorem write_header_spec_witness :
    write_header (Density.Inch 300 7) =
      [0xFF, 0xE0, 0x00, 16, 0x4A, 0x46, 0x49, 0x46, 0x00, 0x01, 0x02,
        0x01] ++ [300 / 256, 300 % 256] ++ [7 / 256, 7 % 256] ++ [0x00, 0x00] :=
  write_header_spec.2.1 300 7 (by decide) (by decide)

/-- Claim C9: for every marker and every data list with `length + 2` at most
65535, the segment is the byte 0xFF, the marker code, a big-endian 16-bit
length field equal to `length + 2`, then the data verbatim; `write_marker`
itself emits exactly `0xFF, code`. -/
theorem write_segment_spec (m : Marker) (data : List Nat)
    (h : data.length + 2 ≤ 65535) :
    write_segment m data =
      [0xFF, m.code] ++
        [(data.length + 2) / 256, (data.length + 2) % 256] ++ data ∧
    write_marker m = [0xFF, m.code] := by
  refine ⟨?_, rfl⟩
  simp [write_segment, write_marker, u16be,
    Nat.mod_eq_of_lt (by omega : data.length + 2 < 65536)]

theorem write_segment_spec_witness :
    write_segment Marker.COM [1, 2, 3] =
      [0xFF, Marker.COM.code] ++
        [(([1, 2, 3] : List Nat).length + 2) / 256,
         (([1, 2, 3] : List Nat).length + 2) % 256] ++ [1, 2, 3] ∧
    write_marker Marker.COM = [0xFF, Marker.COM.code] :=
  write_segment_spec Marker.COM [1, 2, 3] (by decide)

/-- Claim C10: for every marker and every data list with `length + 2` above
65535, `write_segment` still produces a byte list (no error is reported):
the length field is `(length + 2) mod 2^16` because the `usize` to `u16`
cast wraps, the whole data list is still emitted verbatim, and the emitted
16-bit value is strictly smaller than `length + 2`, so the length field no
longer describes the payload. -/
theorem write_segment_wraps (m : Marker) (data : List Nat)
    (h : 65535 < data.length + 2) :
    write_segment m data =
      [0xFF, m.code] ++
        [(data.length + 2) % 65536 / 256, (data.length + 2) % 256] ++ data ∧
    (data.length + 2) % 65536 < data.length + 2 := by
  refine ⟨rfl, ?_⟩
  have hm := Nat.mod_lt (data.length + 2) (by decide : 0 < 65536)
  omega

theorem write_segment_wraps_witness :
    write_segment Marker.COM (List.replicate 65534 0) =
      [0xFF, Marker.COM.code] ++
        [((List.replicate 65534 (0 : Nat)).length + 2) % 65536 / 256,
         ((List.replicate 65534 (0 : Nat)).length + 2) % 256] ++
        List.replicate 65534 0 ∧
    ((List.replicate 65534 (0 : Nat)).length + 2) % 65536 <
      (List.replicate 65534 (0 : Nat)).length + 2 :=
  write_segment_wraps Marker.COM (List.replicate 65534 0)
    (by simp only [List.length_replicate]; omega)
